import Mathlib

set_option maxHeartbeats 1000000

/-!
Shallow embedding of `src/mypy/erasetype.py`: the three type-erasure
transforms (Full Eraser `erase_type` / `EraseTypeVisitor`, Generic-Argument
Eraser `erase_generic_types` / `GenericTypeEraser`, Type-Variable
Substitution `erase_typevars` / `replace_meta_vars` / `TypeVarEraser`)
over the mypy type algebra.  The type algebra itself and the
`TypeTranslator` structural-recursion base class live in `mypy/types.py`,
which is not part of the sources here; those parts are modelled from the
specification and marked as such.
-/

/-- Modelled from the spec: `TypeVarId` (defined in `mypy/types.py`, outside
the given sources) identifies a type variable and distinguishes ordinary
type parameters from solver-internal "meta" variables; `is_meta_var` holds
exactly for the latter (positive meta level). -/
structure TypeVarId where
  rawId : Int
  metaLevel : Nat
deriving DecidableEq, Repr

def TypeVarId.is_meta_var (i : TypeVarId) : Bool :=
  decide (0 < i.metaLevel)

/-- Modelled from the spec: the closed recursive type algebra of
`mypy/types.py` (outside the given sources), one constructor per variant,
each carrying its source-position tag `line`.  `Overloaded` carries an
ordered non-empty sequence of items (first item plus rest), as the spec
requires non-emptiness.  `CallableType` carries parameter types, parameter
metadata (kinds and names), a return type, and a fallback instance type. -/
inductive Typ where
  | UnboundType (name : String) (line : Int)
  | ErrorType (line : Int)
  | TypeList (items : List Typ) (line : Int)
  | AnyType (line : Int)
  | Void (line : Int)
  | NoneTyp (line : Int)
  | UninhabitedType (line : Int)
  | ErasedType (line : Int)
  | PartialType (line : Int)
  | Instance (cls : String) (args : List Typ) (line : Int)
  | TypeVarType (id : TypeVarId) (line : Int)
  | CallableType (argTypes : List Typ) (argKinds : List Int)
      (argNames : List (Option String)) (retType : Typ) (fallback : Typ)
      (line : Int)
  | Overloaded (firstItem : Typ) (restItems : List Typ) (line : Int)
  | TupleType (items : List Typ) (fallback : Typ) (line : Int)
  | UnionType (items : List Typ) (line : Int)
  | TypeType (item : Typ) (line : Int)

/-- Modelled from the spec: `Type.__init__` in `mypy/types.py` (outside the
given sources) gives constructors invoked without an explicit position
argument the default line tag `-1`; `AnyType()`, `Void()` and the
`CallableType(...)` call in `visit_callable_type` use this default. -/
def defaultLine : Int := -1

/-- The source-position tag carried by a type value. -/
def lineOf : Typ → Int
  | .UnboundType _ ln => ln
  | .ErrorType ln => ln
  | .TypeList _ ln => ln
  | .AnyType ln => ln
  | .Void ln => ln
  | .NoneTyp ln => ln
  | .UninhabitedType ln => ln
  | .ErasedType ln => ln
  | .PartialType ln => ln
  | .Instance _ _ ln => ln
  | .TypeVarType _ ln => ln
  | .CallableType _ _ _ _ _ ln => ln
  | .Overloaded _ _ ln => ln
  | .TupleType _ _ ln => ln
  | .UnionType _ ln => ln
  | .TypeType _ ln => ln

/-- The two failure conditions of the Full Eraser: `assert False` on
Unbound/TypeList (spec: `UnsupportedVariant`) and `RuntimeError` on
Erased/Partial (spec: `InvariantViolation`). -/
inductive EraseError where
  | UnsupportedVariant
  | InvariantViolation
deriving DecidableEq, Repr

/-- Embedding of `EraseTypeVisitor` from `src/mypy/erasetype.py`: one case
per visit method, dispatched on the variant.  Failing visit methods become
`Except.error`. -/
def EraseTypeVisitor : Typ → Except EraseError Typ
  | .UnboundType _ _ => .error .UnsupportedVariant
  | .ErrorType ln => .ok (.ErrorType ln)
  | .TypeList _ _ => .error .UnsupportedVariant
  | .AnyType ln => .ok (.AnyType ln)
  | .Void ln => .ok (.Void ln)
  | .NoneTyp ln => .ok (.NoneTyp ln)
  | .UninhabitedType ln => .ok (.UninhabitedType ln)
  | .ErasedType _ => .error .InvariantViolation
  | .PartialType _ => .error .InvariantViolation
  | .Instance c args ln =>
      .ok (.Instance c (List.replicate args.length (.AnyType defaultLine)) ln)
  | .TypeVarType _ _ => .ok (.AnyType defaultLine)
  | .CallableType _ _ _ _ fb _ =>
      .ok (.CallableType [] [] [] (.Void defaultLine) fb defaultLine)
  | .Overloaded f _ _ => EraseTypeVisitor f
  | .TupleType _ fb _ => EraseTypeVisitor fb
  | .UnionType _ _ => .ok (.AnyType defaultLine)
  | .TypeType inner ln => (EraseTypeVisitor inner).map (fun u => .TypeType u ln)

/-- Embedding of `erase_type` from `src/mypy/erasetype.py`. -/
def erase_type (t : Typ) : Except EraseError Typ :=
  EraseTypeVisitor t

/-- Whether the Full Eraser produced a result (rather than a failure). -/
def eraseSucceeds (t : Typ) : Bool :=
  match erase_type t with
  | .ok _ => true
  | .error _ => false

mutual

/-- Whether a type contains an Unbound, TypeList, Erased or Partial variant
at any depth. -/
def containsBad : Typ → Bool
  | .UnboundType _ _ => true
  | .ErrorType _ => false
  | .TypeList _ _ => true
  | .AnyType _ => false
  | .Void _ => false
  | .NoneTyp _ => false
  | .UninhabitedType _ => false
  | .ErasedType _ => true
  | .PartialType _ => true
  | .Instance _ args _ => containsBadList args
  | .TypeVarType _ _ => false
  | .CallableType ats _ _ ret fb _ =>
      containsBadList ats || containsBad ret || containsBad fb
  | .Overloaded f rest _ => containsBad f || containsBadList rest
  | .TupleType items fb _ => containsBadList items || containsBad fb
  | .UnionType items _ => containsBadList items
  | .TypeType inner _ => containsBad inner

/-- List version of `containsBad`. -/
def containsBadList : List Typ → Bool
  | [] => false
  | t :: ts => containsBad t || containsBadList ts

end

mutual

/-- Embedding of `GenericTypeEraser` from `src/mypy/erasetype.py`.  The two
overridden cases (`visit_type_var`, `visit_instance`) are taken from the
source; every other case is the default structural recursion.  Modelled
from the spec for those default cases: the base class `TypeTranslator`
lives in `mypy/types.py`, outside the given sources, and per the spec
"all other variants recurse structurally and rebuild with erased children",
a Callable keeping its own shape, parameter names/kinds and fallback
intact. -/
def GenericTypeEraser : Typ → Typ
  | .UnboundType n ln => .UnboundType n ln
  | .ErrorType ln => .ErrorType ln
  | .TypeList items ln => .TypeList (genericEraseList items) ln
  | .AnyType ln => .AnyType ln
  | .Void ln => .Void ln
  | .NoneTyp ln => .NoneTyp ln
  | .UninhabitedType ln => .UninhabitedType ln
  | .ErasedType ln => .ErasedType ln
  | .PartialType ln => .PartialType ln
  | .Instance c _ ln => .Instance c [] ln
  | .TypeVarType _ _ => .AnyType defaultLine
  | .CallableType ats ks ns ret fb ln =>
      .CallableType (genericEraseList ats) ks ns (GenericTypeEraser ret) fb ln
  | .Overloaded f rest ln =>
      .Overloaded (GenericTypeEraser f) (genericEraseList rest) ln
  | .TupleType items fb ln =>
      .TupleType (genericEraseList items) (GenericTypeEraser fb) ln
  | .UnionType items ln => .UnionType (genericEraseList items) ln
  | .TypeType inner ln => .TypeType (GenericTypeEraser inner) ln

/-- List version of `GenericTypeEraser`. -/
def genericEraseList : List Typ → List Typ
  | [] => []
  | t :: ts => GenericTypeEraser t :: genericEraseList ts

end

/-- Embedding of `erase_generic_types` from `src/mypy/erasetype.py`: a
null-safe wrapper around `GenericTypeEraser` (`if t:` is truthy exactly on
a present type value). -/
def erase_generic_types : Option Typ → Option Typ
  | some t => some (GenericTypeEraser t)
  | none => none

mutual

/-- Embedding of `TypeVarEraser` from `src/mypy/erasetype.py`, parameterized
by the selection predicate `erase_id` and the `replacement` type.  The
overridden case (`visit_type_var`) is taken from the source: the
replacement when `erase_id` holds of the variable's id, the variable itself
otherwise.  Every other case is the default structural recursion, modelled
from the spec for the same reason as in `GenericTypeEraser`; here an
Instance keeps its argument list, each argument being rewritten
recursively. -/
def TypeVarEraser (erase_id : TypeVarId → Bool) (replacement : Typ) : Typ → Typ
  | .UnboundType n ln => .UnboundType n ln
  | .ErrorType ln => .ErrorType ln
  | .TypeList items ln => .TypeList (typeVarEraseList erase_id replacement items) ln
  | .AnyType ln => .AnyType ln
  | .Void ln => .Void ln
  | .NoneTyp ln => .NoneTyp ln
  | .UninhabitedType ln => .UninhabitedType ln
  | .ErasedType ln => .ErasedType ln
  | .PartialType ln => .PartialType ln
  | .Instance c args ln =>
      .Instance c (typeVarEraseList erase_id replacement args) ln
  | .TypeVarType i ln =>
      if erase_id i then replacement else .TypeVarType i ln
  | .CallableType ats ks ns ret fb ln =>
      .CallableType (typeVarEraseList erase_id replacement ats) ks ns
        (TypeVarEraser erase_id replacement ret) fb ln
  | .Overloaded f rest ln =>
      .Overloaded (TypeVarEraser erase_id replacement f)
        (typeVarEraseList erase_id replacement rest) ln
  | .TupleType items fb ln =>
      .TupleType (typeVarEraseList erase_id replacement items)
        (TypeVarEraser erase_id replacement fb) ln
  | .UnionType items ln =>
      .UnionType (typeVarEraseList erase_id replacement items) ln
  | .TypeType inner ln =>
      .TypeType (TypeVarEraser erase_id replacement inner) ln

/-- List version of `TypeVarEraser`. -/
def typeVarEraseList (erase_id : TypeVarId → Bool) (replacement : Typ) :
    List Typ → List Typ
  | [] => []
  | t :: ts =>
      TypeVarEraser erase_id replacement t ::
        typeVarEraseList erase_id replacement ts

end

/-- Embedding of `erase_typevars` from `src/mypy/erasetype.py`: replace all
type variables with Any, or just the ones in the provided collection. -/
def erase_typevars (t : Typ) (ids_to_erase : Option (List TypeVarId)) : Typ :=
  TypeVarEraser
    (fun i => match ids_to_erase with
      | none => true
      | some ids => ids.any (fun j => decide (j = i)))
    (.AnyType defaultLine) t

/-- Embedding of `replace_meta_vars` from `src/mypy/erasetype.py`: replace
unification (meta) variables in a type with the target type. -/
def replace_meta_vars (t : Typ) (target_type : Typ) : Typ :=
  TypeVarEraser (fun i => i.is_meta_var) target_type t

/-- The list helper of `TypeVarEraser` is exactly `List.map` of the
eraser. -/
theorem typeVarEraseList_eq_map (s : TypeVarId → Bool) (r : Typ) :
    ∀ l : List Typ, typeVarEraseList s r l = l.map (TypeVarEraser s r)
  | [] => rfl
  | t :: ts => by
      simp [typeVarEraseList, typeVarEraseList_eq_map s r ts]

/-- On a type free of the four unsupported variants, the Full Eraser
succeeds, and its output erases to itself. -/
theorem erase_ok_of_noBad : ∀ (t : Typ), containsBad t = false →
    ∃ u, EraseTypeVisitor t = Except.ok u ∧ EraseTypeVisitor u = Except.ok u
  | .ErrorType ln, _ => ⟨.ErrorType ln, rfl, rfl⟩
  | .AnyType ln, _ => ⟨.AnyType ln, rfl, rfl⟩
  | .Void ln, _ => ⟨.Void ln, rfl, rfl⟩
  | .NoneTyp ln, _ => ⟨.NoneTyp ln, rfl, rfl⟩
  | .UninhabitedType ln, _ => ⟨.UninhabitedType ln, rfl, rfl⟩
  | .Instance c args ln, _ =>
      ⟨.Instance c (List.replicate args.length (.AnyType defaultLine)) ln, rfl,
        by simp [EraseTypeVisitor]⟩
  | .TypeVarType _ _, _ => ⟨.AnyType defaultLine, rfl, rfl⟩
  | .CallableType _ _ _ _ fb _, _ =>
      ⟨.CallableType [] [] [] (.Void defaultLine) fb defaultLine, rfl, rfl⟩
  | .Overloaded f _ _, h => by
      have hf : containsBad f = false := by
        simp [containsBad, Bool.or_eq_false_iff] at h
        exact h.1
      obtain ⟨u, h1, h2⟩ := erase_ok_of_noBad f hf
      exact ⟨u, h1, h2⟩
  | .TupleType _ fb _, h => by
      have hf : containsBad fb = false := by
        simp [containsBad, Bool.or_eq_false_iff] at h
        exact h.2
      obtain ⟨u, h1, h2⟩ := erase_ok_of_noBad fb hf
      exact ⟨u, h1, h2⟩
  | .UnionType _ _, _ => ⟨.AnyType defaultLine, rfl, rfl⟩
  | .TypeType inner ln, h => by
      have hi : containsBad inner = false := by
        simpa [containsBad] using h
      obtain ⟨u, h1, h2⟩ := erase_ok_of_noBad inner hi
      refine ⟨.TypeType u ln, ?_, ?_⟩
      · show (EraseTypeVisitor inner).map _ = _
        rw [h1]
        rfl
      · show (EraseTypeVisitor u).map _ = _
        rw [h2]
        rfl
  | .UnboundType _ _, h => by simp [containsBad] at h
  | .TypeList _ _, h => by simp [containsBad] at h
  | .ErasedType _, h => by simp [containsBad] at h
  | .PartialType _, h => by simp [containsBad] at h

/-- Claim C1: the Full Eraser is idempotent on every type containing no
Unbound, TypeList, Erased or Partial variant at any depth:
`erase(erase(t)) = erase(t)` (composition in the error monad). -/
theorem erase_type_idempotent (t : Typ) (h : containsBad t = false) :
    (erase_type t).bind erase_type = erase_type t := by
  obtain ⟨u, h1, h2⟩ := erase_ok_of_noBad t h
  show (EraseTypeVisitor t).bind EraseTypeVisitor = EraseTypeVisitor t
  rw [h1]
  simpa [Except.bind] using h2

/-- Witness for C1 at a concrete bad-variant-free input. -/
theorem erase_type_idempotent_witness :
    containsBad (.TupleType [.NoneTyp 1] (.Instance "tuple" [.AnyType 2] 3) 4) = false
    ∧ (erase_type (.TupleType [.NoneTyp 1] (.Instance "tuple" [.AnyType 2] 3) 4)).bind
        erase_type
      = erase_type (.TupleType [.NoneTyp 1] (.Instance "tuple" [.AnyType 2] 3) 4) :=
  ⟨by simp [containsBad, containsBadList],
    erase_type_idempotent _ (by simp [containsBad, containsBadList])⟩

/-- Claim C2: the Full Eraser maps `Instance(C, args)` with `n = len(args)`
to `Instance(C, [Any] * n)`: class and argument count preserved, every
argument position replaced by Any. -/
theorem erase_type_instance_arity (c : String) (args : List Typ) (ln : Int) :
    erase_type (.Instance c args ln)
      = .ok (.Instance c (List.replicate args.length (.AnyType defaultLine)) ln) :=
  rfl

/-- Claim C3: the Generic-Argument Eraser maps `Instance(C, args)` to
`Instance(C, [])` — the argument list is dropped entirely, not replaced by
Any-filled slots of the same arity. -/
theorem generic_eraser_instance_drops_args (c : String) (args : List Typ)
    (ln : Int) :
    GenericTypeEraser (.Instance c args ln) = .Instance c [] ln
    ∧ erase_generic_types (some (.Instance c args ln)) = some (.Instance c [] ln) :=
  ⟨rfl, rfl⟩

/-- Claim C4: the Full Eraser maps every Callable to a new callable with an
empty parameter list and Void return type, whose fallback is exactly the
input's fallback, unchanged. -/
theorem erase_type_callable_fallback (ats : List Typ) (ks : List Int)
    (ns : List (Option String)) (ret fb : Typ) (ln : Int) :
    erase_type (.CallableType ats ks ns ret fb ln)
      = .ok (.CallableType [] [] [] (.Void defaultLine) fb defaultLine) :=
  rfl

/-- Claim C5: the Full Eraser collapses every non-empty Union (including a
single-alternative union) to Any, never to the erasure of the sole
alternative, regardless of the alternatives' contents. -/
theorem erase_type_union_collapse (alts : List Typ) (ln : Int)
    (_h : alts ≠ []) :
    erase_type (.UnionType alts ln) = .ok (.AnyType defaultLine) :=
  rfl

/-- Witness for C5 at a concrete single-alternative union. -/
theorem erase_type_union_collapse_witness :
    ([Typ.NoneTyp 1] ≠ ([] : List Typ))
    ∧ erase_type (.UnionType [.NoneTyp 1] 4) = .ok (.AnyType defaultLine) :=
  ⟨List.cons_ne_nil _ _,
    erase_type_union_collapse [.NoneTyp 1] 4 (List.cons_ne_nil _ _)⟩

/-- Claim C6: the Full Eraser reduces a compound to one representative's
erasure: an Overloaded erases to the erasure of its first item,
independent of the remaining items, and a Tuple erases to the erasure of
its fallback, independent of its items. -/
theorem erase_type_compound_representative :
    (∀ (f : Typ) (rest : List Typ) (ln : Int),
        erase_type (.Overloaded f rest ln) = erase_type f)
    ∧ (∀ (items : List Typ) (fb : Typ) (ln : Int),
        erase_type (.TupleType items fb ln) = erase_type fb) :=
  ⟨fun _ _ _ => rfl, fun _ _ _ => rfl⟩

/-- Claim C7: `TypeVarEraser` replaces a TypeVar occurrence with the
replacement exactly when the selection predicate holds of its id, leaves
non-selected TypeVars unchanged, and recurses structurally elsewhere (an
Instance keeps its argument list with each argument rewritten); in a
Callable holding two distinct variables `v1, v2` with only `v1` selected,
exactly the `v1` occurrence is replaced. -/
theorem typevar_eraser_selective (select : TypeVarId → Bool) (repl : Typ) :
    (∀ (i : TypeVarId) (ln : Int),
        TypeVarEraser select repl (.TypeVarType i ln)
          = if select i then repl else .TypeVarType i ln)
    ∧ (∀ (c : String) (args : List Typ) (ln : Int),
        TypeVarEraser select repl (.Instance c args ln)
          = .Instance c (args.map (TypeVarEraser select repl)) ln)
    ∧ (∀ (v1 v2 : TypeVarId) (l1 l2 : Int) (ks : List Int)
        (ns : List (Option String)) (ret fb : Typ) (ln : Int), v1 ≠ v2 →
        TypeVarEraser (fun i => decide (i = v1)) repl
            (.CallableType [.TypeVarType v1 l1, .TypeVarType v2 l2] ks ns ret fb ln)
          = .CallableType [repl, .TypeVarType v2 l2] ks ns
              (TypeVarEraser (fun i => decide (i = v1)) repl ret) fb ln) := by
  refine ⟨fun i ln => rfl, fun c args ln => ?_, ?_⟩
  · simp [TypeVarEraser, typeVarEraseList_eq_map]
  · intro v1 v2 l1 l2 ks ns ret fb ln h
    simp [TypeVarEraser, typeVarEraseList, Ne.symm h]

/-- Witness for C7 at concrete distinct variables in a Callable. -/
theorem typevar_eraser_selective_witness :
    (⟨1, 0⟩ : TypeVarId) ≠ ⟨2, 0⟩
    ∧ TypeVarEraser (fun i => decide (i = (⟨1, 0⟩ : TypeVarId))) (.NoneTyp 9)
        (.CallableType [.TypeVarType ⟨1, 0⟩ 1, .TypeVarType ⟨2, 0⟩ 2] [0, 0]
          [none, none] (.Void 0) (.Instance "function" [] 0) 3)
      = .CallableType [.NoneTyp 9, .TypeVarType ⟨2, 0⟩ 2] [0, 0] [none, none]
          (.Void 0) (.Instance "function" [] 0) 3 := by
  have h : (⟨1, 0⟩ : TypeVarId) ≠ ⟨2, 0⟩ := by decide
  refine ⟨h, ?_⟩
  have h2 := (typevar_eraser_selective (fun _ => true) (.NoneTyp 9)).2.2
    ⟨1, 0⟩ ⟨2, 0⟩ 1 2 [0, 0] [none, none] (.Void 0) (.Instance "function" [] 0) 3 h
  simpa [TypeVarEraser] using h2

/-- Claim C8: the Full Eraser fails with UnsupportedVariant exactly on
Unbound and TypeList inputs, with InvariantViolation exactly on Erased and
Partial inputs, and returns a result on every type containing none of
these four variants. -/
theorem erase_type_failure_conditions :
    (∀ (n : String) (ln : Int),
        erase_type (.UnboundType n ln) = .error .UnsupportedVariant)
    ∧ (∀ (items : List Typ) (ln : Int),
        erase_type (.TypeList items ln) = .error .UnsupportedVariant)
    ∧ (∀ ln : Int, erase_type (.ErasedType ln) = .error .InvariantViolation)
    ∧ (∀ ln : Int, erase_type (.PartialType ln) = .error .InvariantViolation)
    ∧ (∀ t : Typ, containsBad t = false → eraseSucceeds t = true) := by
  refine ⟨fun _ _ => rfl, fun _ _ => rfl, fun _ => rfl, fun _ => rfl, fun t h => ?_⟩
  obtain ⟨u, h1, _⟩ := erase_ok_of_noBad t h
  simp [eraseSucceeds, erase_type, h1]

/-- Witness for C8's totality part at a concrete bad-variant-free input. -/
theorem erase_type_failure_conditions_witness :
    containsBad (.Instance "C" [] 0) = false
    ∧ eraseSucceeds (.Instance "C" [] 0) = true :=
  ⟨by simp [containsBad, containsBadList],
    erase_type_failure_conditions.2.2.2.2 _ (by simp [containsBad, containsBadList])⟩

/-- Counterexample to C9: the Full Eraser's Callable reconstruction does
not carry the input's line tag — erasing a Callable tagged with line 5
yields a callable tagged with the default line, not 5. -/
theorem erase_type_callable_line_cex :
    (erase_type (.CallableType [] [] [] (.Void 5) (.Instance "function" [] 5) 5)).toOption.map
        lineOf
      ≠ some (lineOf (.CallableType [] [] [] (.Void 5) (.Instance "function" [] 5) 5)) := by
  decide

/-- Claim C9 as amended: the Full Eraser threads the input's line tag
through the Instance and TypeType reconstructions (and
`erase(TypeType(inner)) = TypeType(erase(inner))` with the original line),
but the rebuilt Callable carries the constructor's default line, not the
input's. -/
theorem erase_type_line_propagation_amended :
    (∀ (c : String) (args : List Typ) (ln : Int),
        (erase_type (.Instance c args ln)).toOption.map lineOf = some ln)
    ∧ (∀ (inner : Typ) (ln : Int),
        erase_type (.TypeType inner ln)
          = (erase_type inner).map (fun u => .TypeType u ln))
    ∧ (∀ (ats : List Typ) (ks : List Int) (ns : List (Option String))
        (ret fb : Typ) (ln : Int),
        (erase_type (.CallableType ats ks ns ret fb ln)).toOption.map lineOf
          = some defaultLine) :=
  ⟨fun _ _ _ => rfl, fun _ _ => rfl, fun _ _ _ _ _ _ => rfl⟩

/-- Claim C10: substitution is single-pass — a selected TypeVar is mapped
to the replacement verbatim, without traversing the replacement; in
particular `replace_meta_vars` leaves a meta variable occurring inside the
target type unchanged in the output (no iteration to a fixed point). -/
theorem typevar_eraser_single_pass :
    (∀ (select : TypeVarId → Bool) (repl : Typ) (i : TypeVarId) (ln : Int),
        select i = true → TypeVarEraser select repl (.TypeVarType i ln) = repl)
    ∧ (∀ (i : TypeVarId) (l1 l2 : Int), i.is_meta_var = true →
        replace_meta_vars (.TypeVarType i l1) (.TypeVarType i l2)
          = .TypeVarType i l2) := by
  constructor
  · intro select repl i ln h
    simp [TypeVarEraser, h]
  · intro i l1 l2 h
    simp [replace_meta_vars, TypeVarEraser, h]

/-- Witness for C10 at a concrete meta variable appearing in the target. -/
theorem typevar_eraser_single_pass_witness :
    (⟨5, 1⟩ : TypeVarId).is_meta_var = true
    ∧ replace_meta_vars (.TypeVarType ⟨5, 1⟩ 0) (.TypeVarType ⟨5, 1⟩ 7)
        = .TypeVarType ⟨5, 1⟩ 7 :=
  ⟨by decide, typevar_eraser_single_pass.2 ⟨5, 1⟩ 0 7 (by decide)⟩

